import Mathlib

/-!
Shallow embedding of the dinner-group feature of the conference social app:
the places provider (`google-places.server`), the restaurant service
(`restaurants.server.ts`) and the page loader's filter/sort logic
(`routes/users+/$username_+/restaurants.tsx`).

The relational store (Prisma models `DinnerGroup` and `Attendee`) is embedded
as explicit lists of rows; cuid generation is embedded as a fresh-id counter
`nextId`.  `findFirst`/`findUnique` become `List.find?` in table order,
`delete` becomes `List.filter`, `count` becomes `List.countP`.
-/

namespace DinnerApp

/-- A `DinnerGroup` row: one per restaurant, created on first join. -/
structure DinnerGroup where
  id : Nat
  restaurantId : String
deriving DecidableEq, Repr

/-- An `Attendee` row: links a user to a dinner group. -/
structure Attendee where
  id : Nat
  userId : String
  dinnerGroupId : Nat
deriving DecidableEq, Repr

/-- The relational store, plus a counter supplying fresh row ids. -/
structure Store where
  groups : List DinnerGroup
  attendees : List Attendee
  nextId : Nat
deriving DecidableEq, Repr

/-- The initial, empty store. -/
def emptyStore : Store := ⟨[], [], 0⟩

/-- `leaveDinnerGroup({ userId })` from `restaurants.server.ts`:
finds the user's attendance (`findFirst`); if none, returns `null` unchanged;
otherwise deletes that `Attendee` row, counts the remaining attendees of its
dinner group, deletes the group when the count is `0`, and returns the left
group's `restaurantId`. -/
def leaveDinnerGroup (userId : String) (s : Store) : Option String × Store :=
  match s.attendees.find? (fun a => a.userId == userId) with
  | none => (none, s)
  | some attendee =>
    let attendees' := s.attendees.filter (fun a => a.id != attendee.id)
    let remainingAttendees :=
      attendees'.countP (fun a => a.dinnerGroupId == attendee.dinnerGroupId)
    let groups' :=
      if remainingAttendees = 0 then
        s.groups.filter (fun g => g.id != attendee.dinnerGroupId)
      else s.groups
    ((s.groups.find? (fun g => g.id == attendee.dinnerGroupId)).map (·.restaurantId),
     { s with attendees := attendees', groups := groups' })

/-- `joinDinnerGroup({ userId, restaurantId })` from `restaurants.server.ts`:
first leaves any existing dinner group, then finds (`findUnique` by
`restaurantId`) or creates the target dinner group, and inserts an `Attendee`
row for the user, returning the created row. -/
def joinDinnerGroup (userId restaurantId : String) (s : Store) : Attendee × Store :=
  let s1 := (leaveDinnerGroup userId s).2
  match s1.groups.find? (fun g => g.restaurantId == restaurantId) with
  | some dinnerGroup =>
    let attendee : Attendee := ⟨s1.nextId, userId, dinnerGroup.id⟩
    (attendee, { s1 with attendees := s1.attendees ++ [attendee], nextId := s1.nextId + 1 })
  | none =>
    let dinnerGroup : DinnerGroup := ⟨s1.nextId, restaurantId⟩
    let s2 : Store := { s1 with groups := s1.groups ++ [dinnerGroup], nextId := s1.nextId + 1 }
    let attendee : Attendee := ⟨s2.nextId, userId, dinnerGroup.id⟩
    (attendee, { s2 with attendees := s2.attendees ++ [attendee], nextId := s2.nextId + 1 })

/-- The user's current `Attendee` rows (in table order). -/
def attendeesOf (s : Store) (u : String) : List Attendee :=
  s.attendees.filter (fun a => a.userId == u)

/-- The store invariants maintained by sequential `joinDinnerGroup` /
`leaveDinnerGroup` runs: distinct row ids, at most one `DinnerGroup` per
`restaurantId`, at most one `Attendee` row per user, referential integrity,
no empty `DinnerGroup`, and all ids below the fresh-id counter. -/
def Inv (s : Store) : Prop :=
  (s.groups.map (·.id)).Nodup ∧
  (s.groups.map (·.restaurantId)).Nodup ∧
  (s.attendees.map (·.id)).Nodup ∧
  (s.attendees.map (·.userId)).Nodup ∧
  (∀ a ∈ s.attendees, ∃ g ∈ s.groups, g.id = a.dinnerGroupId) ∧
  (∀ g ∈ s.groups, ∃ a ∈ s.attendees, a.dinnerGroupId = g.id) ∧
  (∀ g ∈ s.groups, g.id < s.nextId) ∧
  (∀ a ∈ s.attendees, a.id < s.nextId)

/-- States reachable from the empty store by sequential join/leave calls. -/
inductive Reachable : Store → Prop
  | empty : Reachable emptyStore
  | join (u r : String) {s : Store} : Reachable s → Reachable (joinDinnerGroup u r s).2
  | leave (u : String) {s : Store} : Reachable s → Reachable (leaveDinnerGroup u s).2

/-! ### Places provider (`google-places.server.ts`)

JS numbers are embedded as `ℚ` (every JS number value is rational); absent
optional fields become `none`. -/

/-- An entry of `GooglePlacesNearbyResponse.results`
(`geometry.location` flattened into `lat`/`lng`). -/
structure NearbyPlace where
  place_id : String
  name : String
  vicinity : String
  types : List String
  lat : ℚ
  lng : ℚ
deriving DecidableEq, Repr

/-- The nearby-search response. -/
structure NearbyResponse where
  status : String
  error_message : Option String
  results : Option (List NearbyPlace)
deriving DecidableEq, Repr

/-- An entry of `GooglePlacesDetailsResponse.result.photos`. -/
structure PlacePhoto where
  photo_reference : String
  width : Nat
  height : Nat
deriving DecidableEq, Repr

/-- `GooglePlacesDetailsResponse.result`
(`geometry.location` flattened into `lat`/`lng`). -/
structure PlaceDetailsResult where
  place_id : String
  name : String
  price_level : Option Int
  rating : Option ℚ
  lat : ℚ
  lng : ℚ
  photos : Option (List PlacePhoto)
  url : Option String
deriving DecidableEq, Repr

/-- The place-details response. -/
structure DetailsResponse where
  status : String
  error_message : Option String
  result : Option PlaceDetailsResult
deriving DecidableEq, Repr

/-- The provider's output record (`NearbyRestaurant`). -/
structure NearbyRestaurant where
  id : String
  name : String
  priceLevel : Option Int
  rating : Option ℚ
  lat : ℚ
  lng : ℚ
  photoRef : Option String
  mapsUrl : String
deriving DecidableEq, Repr

/-- JS `s || dflt` for an optional string: the default is used when `s` is
absent (`undefined`) or empty (`""` is falsy). -/
def jsOrString (s : Option String) (dflt : String) : String :=
  match s with
  | none => dflt
  | some u => if u = "" then dflt else u

/-- The body of the per-place details fetch in `getNearbyRestaurants`:
a non-`OK` status or a missing `result` yields `null` (the place is dropped);
otherwise the detail fields are mapped into a `NearbyRestaurant`. -/
def detailsToRestaurant (detailsData : DetailsResponse) : Option NearbyRestaurant :=
  if detailsData.status ≠ "OK" then none
  else
    match detailsData.result with
    | none => none
    | some result =>
      some
        { id := result.place_id
          name := result.name
          priceLevel := result.price_level
          rating := result.rating
          lat := result.lat
          lng := result.lng
          photoRef := (result.photos.bind List.head?).map (·.photo_reference)
          mapsUrl := jsOrString result.url
            ("https://maps.google.com/?q=" ++ toString result.lat ++ "," ++ toString result.lng) }

/-- `getNearbyRestaurants({ lat, lng, radius })` from `google-places.server.ts`,
with the two HTTP round trips replaced by their responses: `nearbyData` is the
nearby-search response and `details` gives the details response for each
`place_id`.  A status other than `OK`/`ZERO_RESULTS` throws; `ZERO_RESULTS`
or an absent/empty `results` yields `[]` (JS `!nearbyData.results?.length`);
otherwise each place is detailed and the `null` results are filtered out
(`.filter(Boolean)`). -/
def getNearbyRestaurants (nearbyData : NearbyResponse)
    (details : String → DetailsResponse) : Except String (List NearbyRestaurant) :=
  if nearbyData.status ≠ "OK" ∧ nearbyData.status ≠ "ZERO_RESULTS" then
    .error ("Google Places API error: " ++ nearbyData.status)
  else if nearbyData.status = "ZERO_RESULTS" ∨ nearbyData.results.getD [] = [] then
    .ok []
  else
    .ok ((((nearbyData.results.getD []).map
      (fun place => detailsToRestaurant (details place.place_id))).filterMap id))

/-! ### Restaurant service (`restaurants.server.ts`) -/

/-- A `Restaurant` row (provider-assigned id, upserted from provider data). -/
structure Restaurant where
  id : String
  name : String
  priceLevel : Option Int
  rating : Option ℚ
  lat : ℚ
  lng : ℚ
  photoRef : Option String
  mapsUrl : String
deriving DecidableEq, Repr

/-- `RESTAURANT_CACHE_TTL = 1000 * 60 * 60 * 24` (24 hours, in milliseconds). -/
def RESTAURANT_CACHE_TTL : Nat := 1000 * 60 * 60 * 24

/-- The cache key `` `restaurants-${lat}-${lng}-${radius}` `` of
`getAllRestaurantDetails`.  JS number-to-string conversion is injective on
number values; it is embedded by the canonical rendering of `ℚ`. -/
def restaurantCacheKey (lat lng : ℚ) (radius : ℚ) : String :=
  "restaurants-" ++ toString lat ++ "-" ++ toString lng ++ "-" ++ toString radius

/-- Modelled from the spec: the generic TTL-memoization cache helper
(`cachified` over `lruCache` from `cache.server`, whose source is not in the
repository slice): "fetches/caches provider results ... with a 24-hour TTL";
"TTL cache: time-bounded memoization of provider responses".  The cache is a
list of `(key, value, createdTime)` entries; a lookup whose entry is no older
than `ttl` milliseconds is a hit and returns the cached value unchanged,
anything else computes the fresh value and stores it at the current time.
Returns `(value, hit?, updated cache)`. -/
def cachifiedRun {α : Type} (key : String) (ttl : Nat) (now : Nat)
    (cache : List (String × α × Nat)) (getFreshValue : α) :
    α × Bool × List (String × α × Nat) :=
  match cache.find? (fun e => e.1 == key) with
  | some e =>
    if now - e.2.2 ≤ ttl then (e.2.1, true, cache)
    else (getFreshValue, false,
      (key, getFreshValue, now) :: cache.filter (fun e => e.1 != key))
  | none => (getFreshValue, false, (key, getFreshValue, now) :: cache)

/-- Rounding a coordinate to 4 decimal places: one natural reading of the
spec's "keyed by rounded location", used to compare the spec's key with the
key the code actually builds. -/
def roundTo4 (q : ℚ) : ℚ := (round (q * 10000) : ℤ) / 10000

/-- `toRadians(deg) = deg * (Math.PI / 180)` (local helper of
`calculateDistance`). -/
noncomputable def toRadians (deg : ℝ) : ℝ := deg * (Real.pi / 180)

/-- JS `Math.atan2(y, x)`: the angle of the point `(x, y)`, embedded by its
standard piecewise definition over `Real.arctan`. -/
noncomputable def atan2 (y x : ℝ) : ℝ :=
  if 0 < x then Real.arctan (y / x)
  else if x < 0 then
    (if 0 ≤ y then Real.arctan (y / x) + Real.pi else Real.arctan (y / x) - Real.pi)
  else
    (if 0 < y then Real.pi / 2 else if y < 0 then -(Real.pi / 2) else 0)

/-- `parseFloat(x.toFixed(2))`: rounding to 2 decimal places.  The result is
an exact 2-decimal value, hence returned in `ℚ`. -/
noncomputable def round2 (x : ℝ) : ℚ := (round (x * 100) : ℤ) / 100

/-- The intermediate `a` of the haversine formula inside `calculateDistance`:
`sin(dLat/2)*sin(dLat/2) + cos(lat1)*cos(lat2)*sin(dLng/2)*sin(dLng/2)`
(angles in radians). -/
noncomputable def haversineA (lat1 lng1 lat2 lng2 : ℝ) : ℝ :=
  Real.sin (toRadians (lat2 - lat1) / 2) * Real.sin (toRadians (lat2 - lat1) / 2) +
    Real.cos (toRadians lat1) * Real.cos (toRadians lat2) *
      Real.sin (toRadians (lng2 - lng1) / 2) * Real.sin (toRadians (lng2 - lng1) / 2)

/-- `calculateDistance(lat1, lng1, lat2, lng2)` from `restaurants.server.ts`:
haversine distance in miles (`R = 3958.8`), `c = 2 * atan2(√a, √(1-a))`,
rounded to 2 decimal places. -/
noncomputable def calculateDistance (lat1 lng1 lat2 lng2 : ℝ) : ℚ :=
  round2 (3958.8 *
    (2 * atan2 (Real.sqrt (haversineA lat1 lng1 lat2 lng2))
      (Real.sqrt (1 - haversineA lat1 lng1 lat2 lng2))))

/-- `getUserAttendingRestaurant(userId)`: `findFirst` over `Attendee` with the
selected `dinnerGroup.restaurantId`.  The outer `Option` is the `findFirst`
result, the inner one the joined group's `restaurantId`. -/
def getUserAttendingRestaurant (userId : String) (s : Store) : Option (Option String) :=
  (s.attendees.find? (fun a => a.userId == userId)).map
    (fun a => (s.groups.find? (fun g => g.id == a.dinnerGroupId)).map (·.restaurantId))

/-- `getAttendeeCounts(restaurantIds)`: `findMany` over `DinnerGroup` with
`restaurantId ∈ restaurantIds` and the attendee `_count`, reduced into a
record mapping `restaurantId` to that count (missing keys read as `0`,
matching the caller's `attendeeCounts[restaurant.id] || 0`). -/
def getAttendeeCounts (restaurantIds : List String) (s : Store) : String → Nat :=
  let dinnerGroups := s.groups.filter (fun g => restaurantIds.contains g.restaurantId)
  dinnerGroups.foldl
    (fun counts group =>
      Function.update counts group.restaurantId
        (s.attendees.countP (fun a => a.dinnerGroupId == group.id)))
    (fun _ => 0)

/-- The record type returned by `getAllRestaurantDetails`
(`RestaurantWithDetails`). -/
structure RestaurantWithDetails where
  id : String
  name : String
  priceLevel : Option Int
  rating : Option ℚ
  lat : ℚ
  lng : ℚ
  photoRef : Option String
  mapsUrl : String
  distance : ℚ
  attendeeCount : Nat
  isUserAttending : Bool
deriving DecidableEq, Repr

/-- The merge step of `getAllRestaurantDetails({ lat, lng, userId, radius })`:
given the cached/fetched `Restaurant` list, looks up the user's current
attendance and the live attendee counts, and maps every restaurant to a
`RestaurantWithDetails` with computed `distance`, `attendeeCount` and
`isUserAttending` (`userAttendance?.dinnerGroup?.restaurantId === restaurant.id`). -/
noncomputable def getAllRestaurantDetails (lat lng : ℚ) (userId : String)
    (s : Store) (restaurants : List Restaurant) : List RestaurantWithDetails :=
  let userAttendance := getUserAttendingRestaurant userId s
  let restaurantIds := restaurants.map (·.id)
  let attendeeCounts := getAttendeeCounts restaurantIds s
  restaurants.map (fun restaurant =>
    { id := restaurant.id
      name := restaurant.name
      priceLevel := restaurant.priceLevel
      rating := restaurant.rating
      lat := restaurant.lat
      lng := restaurant.lng
      photoRef := restaurant.photoRef
      mapsUrl := restaurant.mapsUrl
      distance := calculateDistance (lat : ℝ) (lng : ℝ) (restaurant.lat : ℝ) (restaurant.lng : ℝ)
      attendeeCount := attendeeCounts restaurant.id
      isUserAttending := decide (userAttendance = some (some restaurant.id)) })

/-! ### Page loader filter/sort logic (`routes/users+/$username_+/restaurants.tsx`) -/

/-- The parsed query filters (`FilterParamsSchema`): `distance` 1-10 miles,
`rating` 1-5, `price` 1-4, each optional. -/
structure Filters where
  distance : Option ℚ
  rating : Option ℚ
  price : Option Int
deriving DecidableEq, Repr

/-- The rating test `!r.rating || r.rating < filterParams.data.rating` of the
loader's nearby filter: `true` means the restaurant is rejected.  JS `!r.rating`
is `true` both for a missing rating and for a rating of `0` (falsiness). -/
def ratingFails (q : ℚ) (rating : Option ℚ) : Bool :=
  match rating with
  | none => true
  | some rr => if rr = 0 then true else decide (rr < q)

/-- The loader's nearby-list predicate: only zero-attendee restaurants, within
the active distance filter (default 1 mile), passing the active rating filter,
and with `priceLevel` strictly equal (`!==`) to the active price filter. -/
def nearbyFilter (filters : Filters) (r : RestaurantWithDetails) : Bool :=
  if r.attendeeCount > 0 then false
  else if (match filters.distance with
    | some d => decide (r.distance > d)
    | none => decide (r.distance > 1)) then false
  else if (match filters.rating with
    | some q => ratingFails q r.rating
    | none => false) then false
  else if (match filters.price with
    | some p => decide (r.priceLevel ≠ some p)
    | none => false) then false
  else true

/-- JS `r.rating || 0`: a missing rating reads as `0` in the sort comparator. -/
def ratingOrZero (r : RestaurantWithDetails) : ℚ := r.rating.getD 0

/-- The nearby-list comparator
`(a, b) => { ratingDiff = (b.rating||0) - (a.rating||0); ratingDiff !== 0 ? ratingDiff : a.distance - b.distance }`
as the "may precede" relation (comparator value `≤ 0`): rating descending with
distance ascending as tiebreaker. -/
def nearbyLE (a b : RestaurantWithDetails) : Bool :=
  if ratingOrZero b ≠ ratingOrZero a then decide (ratingOrZero b < ratingOrZero a)
  else decide (a.distance ≤ b.distance)

/-- The attendance-list comparator `(a, b) => b.attendeeCount - a.attendeeCount`
as the "may precede" relation: attendee count descending. -/
def attendanceLE (a b : RestaurantWithDetails) : Bool :=
  decide (b.attendeeCount ≤ a.attendeeCount)

/-- The loader's `restaurantsWithAttendance`: restaurants with at least one
attendee, sorted by attendee count descending.  ES2019 `Array.prototype.sort`
is stable; it is embedded as `mergeSort`. -/
def restaurantsWithAttendance (restaurants : List RestaurantWithDetails) :
    List RestaurantWithDetails :=
  (restaurants.filter (fun r => decide (r.attendeeCount > 0))).mergeSort attendanceLE

/-- The loader's `restaurantsNearby`: zero-attendee restaurants passing the
active filters, sorted by rating descending then distance ascending, capped at
the top 30. -/
def restaurantsNearby (filters : Filters) (restaurants : List RestaurantWithDetails) :
    List RestaurantWithDetails :=
  ((restaurants.filter (nearbyFilter filters)).mergeSort nearbyLE).take 30

/-! ### Decidability of the store invariant, and concrete sample data -/

instance (s : Store) : Decidable (Inv s) := by
  unfold Inv
  infer_instance

/-- A store with one dinner group attended by one user (a reachable state). -/
def storeOne : Store := ⟨[⟨0, "r1"⟩], [⟨1, "u1", 0⟩], 2⟩

/-- A store holding a dinner group with no attendees: representable in the
relational schema, but never produced by sequential join/leave runs. -/
def storeEmptyGroup : Store := ⟨[⟨0, "r1"⟩], [], 1⟩

/-- A sample nearby-search place. -/
def placeP1 : NearbyPlace := ⟨"p1", "Pizza Place", "12 Main St", ["restaurant"], 1, 2⟩

/-- A second sample nearby-search place. -/
def placeP2 : NearbyPlace := ⟨"p2", "Sushi Place", "14 Main St", ["restaurant"], 3, 4⟩

/-- A successful details response for `placeP1`. -/
def detailsOkP1 : DetailsResponse :=
  ⟨"OK", none, some ⟨"p1", "Pizza Place", some 2, some (mkRat 9 2), 1, 2,
    some [⟨"ref1", 400, 300⟩], some "https://maps.google.com/?cid=1"⟩⟩

/-- A failing details response. -/
def detailsFail : DetailsResponse := ⟨"NOT_FOUND", none, none⟩

/-- A details lookup that succeeds for `placeP1` and fails for every other
place. -/
def detailsMixed : String → DetailsResponse :=
  fun placeId => if placeId = "p1" then detailsOkP1 else detailsFail

/-- A nearby-search response with one result whose details call fails. -/
def nbOkDetailsFail : NearbyResponse := ⟨"OK", none, some [placeP2]⟩

/-- A sample `Restaurant` row. -/
def restA : Restaurant := ⟨"A", "Alpha Grill", some 2, some 4, 1, 2, none, "https://maps.google.com/?cid=9"⟩

/-- A sample zero-attendee restaurant record for the loader. -/
def rwdA : RestaurantWithDetails :=
  ⟨"A", "Alpha Grill", some 2, some (mkRat 7 2), 1, 2, none, "https://maps.google.com/?cid=9",
    mkRat 1 2, 0, false⟩

/-- A sample restaurant record with attendees for the loader. -/
def rwdB : RestaurantWithDetails :=
  ⟨"B", "Beta Bistro", some 3, some 4, 3, 4, none, "https://maps.google.com/?cid=10",
    mkRat 3 4, 2, false⟩

/-! ## Theorems -/

/-- Claim C7, as stated ("returns an empty list without error exactly when the
nearby-search response has status `ZERO_RESULTS` or an `OK` status with no
results"), is refuted at a concrete input: an `OK` response with one result
whose details call fails also yields `.ok []`. -/
theorem c7_counterexample :
    getNearbyRestaurants nbOkDetailsFail (fun _ => detailsFail) = .ok [] ∧
    ¬(nbOkDetailsFail.status = "ZERO_RESULTS" ∨
      (nbOkDetailsFail.status = "OK" ∧ nbOkDetailsFail.results.getD [] = [])) :=
  ⟨rfl, by decide⟩

/-- Claim C7 (amended): `getNearbyRestaurants` returns `[]` without error
whenever the nearby-search status is `ZERO_RESULTS`, or is `OK` with an
absent or empty result list; and it throws exactly when the status is neither
`OK` nor `ZERO_RESULTS`.  (An empty list may additionally result when every
per-place details call fails, see `c7_counterexample`.) -/
theorem c7_amended (nb : NearbyResponse) (det : String → DetailsResponse) :
    ((nb.status = "ZERO_RESULTS" ∨ (nb.status = "OK" ∧ nb.results.getD [] = [])) →
      getNearbyRestaurants nb det = .ok []) ∧
    ((∃ e, getNearbyRestaurants nb det = .error e) ↔
      nb.status ≠ "OK" ∧ nb.status ≠ "ZERO_RESULTS") := by
  constructor
  · intro h
    have hne : ¬(nb.status ≠ "OK" ∧ nb.status ≠ "ZERO_RESULTS") := by
      rcases h with h | ⟨h1, _⟩
      · simp [h]
      · simp [h1]
    have hz : nb.status = "ZERO_RESULTS" ∨ nb.results.getD [] = [] := by
      rcases h with h | ⟨_, h2⟩
      · exact Or.inl h
      · exact Or.inr h2
    unfold getNearbyRestaurants
    rw [if_neg hne, if_pos hz]
  · constructor
    · rintro ⟨e, he⟩
      by_cases hc : nb.status ≠ "OK" ∧ nb.status ≠ "ZERO_RESULTS"
      · exact hc
      · unfold getNearbyRestaurants at he
        rw [if_neg hc] at he
        split at he <;> simp at he
    · intro hc
      refine ⟨"Google Places API error: " ++ nb.status, ?_⟩
      unfold getNearbyRestaurants
      rw [if_pos hc]

/-- Witness for `c7_amended`: a `ZERO_RESULTS` response yields `.ok []`. -/
theorem c7_amended_witness :
    ((⟨"ZERO_RESULTS", none, none⟩ : NearbyResponse).status = "ZERO_RESULTS" ∨
      ((⟨"ZERO_RESULTS", none, none⟩ : NearbyResponse).status = "OK" ∧
        (⟨"ZERO_RESULTS", none, none⟩ : NearbyResponse).results.getD [] = [])) ∧
    getNearbyRestaurants ⟨"ZERO_RESULTS", none, none⟩ (fun _ => detailsFail) = .ok [] :=
  ⟨Or.inl rfl, (c7_amended ⟨"ZERO_RESULTS", none, none⟩ (fun _ => detailsFail)).1 (Or.inl rfl)⟩

/-- Claim C8: when the nearby search succeeds with a non-empty result list,
`getNearbyRestaurants` returns exactly the successfully detailed places —
the `filterMap` of the per-place detail processing — so a member of the
output is precisely a successful detail result, the output length counts the
successful details calls, and the failed places are merely dropped. -/
theorem c8_partial_failure (nb : NearbyResponse) (det : String → DetailsResponse)
    (rs : List NearbyPlace) (h1 : nb.status = "OK") (h2 : nb.results = some rs)
    (h3 : rs ≠ []) :
    getNearbyRestaurants nb det =
      .ok (rs.filterMap (fun p => detailsToRestaurant (det p.place_id))) ∧
    (∀ x : NearbyRestaurant,
      x ∈ rs.filterMap (fun p => detailsToRestaurant (det p.place_id)) ↔
        ∃ p ∈ rs, detailsToRestaurant (det p.place_id) = some x) ∧
    (rs.filterMap (fun p => detailsToRestaurant (det p.place_id))).length =
      rs.countP (fun p => (detailsToRestaurant (det p.place_id)).isSome) := by
  refine ⟨?_, ?_, ?_⟩
  · unfold getNearbyRestaurants
    rw [h1, h2]
    rw [if_neg (by simp), if_neg (by simpa using h3)]
    simp [List.filterMap_map, Function.id_comp]
  · intro x
    exact List.mem_filterMap
  · exact List.length_filterMap_eq_countP _ _

/-- Witness for `c8_partial_failure`: two places, one successful details call
and one failing one; the result is the single successful restaurant. -/
theorem c8_partial_failure_witness :
    (⟨"OK", none, some [placeP1, placeP2]⟩ : NearbyResponse).status = "OK" ∧
    ([placeP1, placeP2] : List NearbyPlace) ≠ [] ∧
    getNearbyRestaurants ⟨"OK", none, some [placeP1, placeP2]⟩ detailsMixed =
      .ok ([placeP1, placeP2].filterMap (fun p => detailsToRestaurant (detailsMixed p.place_id))) :=
  ⟨rfl, by decide,
    (c8_partial_failure ⟨"OK", none, some [placeP1, placeP2]⟩ detailsMixed
      [placeP1, placeP2] rfl rfl (by decide)).1⟩

/-- Everything the loader's nearby-filter predicate guarantees about a
restaurant it accepts. -/
theorem nearbyFilter_eq_true (filters : Filters) (r : RestaurantWithDetails)
    (h : nearbyFilter filters r = true) :
    r.attendeeCount = 0 ∧
    r.distance ≤ filters.distance.getD 1 ∧
    (∀ q, filters.rating = some q → ratingFails q r.rating = false) ∧
    (∀ p, filters.price = some p → r.priceLevel = some p) := by
  unfold nearbyFilter at h
  split_ifs at h with h1 h2 h3 h4
  refine ⟨by omega, ?_, ?_, ?_⟩
  · cases hd : filters.distance with
    | some d =>
      rw [hd] at h2
      simp only [decide_eq_true_eq] at h2
      simpa [hd] using le_of_not_lt h2
    | none =>
      rw [hd] at h2
      simp only [decide_eq_true_eq] at h2
      simpa [hd] using le_of_not_lt h2
  · intro q hq
    rw [hq] at h3
    exact Bool.not_eq_true _ |>.mp h3
  · intro p hp
    rw [hp] at h4
    simpa using h4

/-- Claim C5: for every restaurant list and filter choice, the loader's nearby
list has at most 30 entries, contains only zero-attendee restaurants, and
every entry satisfies the active distance (default 1 mile), rating and price
predicates. -/
theorem c5_nearby_filtered (filters : Filters) (restaurants : List RestaurantWithDetails) :
    (restaurantsNearby filters restaurants).length ≤ 30 ∧
    ∀ r ∈ restaurantsNearby filters restaurants,
      r.attendeeCount = 0 ∧
      r.distance ≤ filters.distance.getD 1 ∧
      (∀ q, filters.rating = some q → ∃ rr, r.rating = some rr ∧ q ≤ rr) ∧
      (∀ p, filters.price = some p → r.priceLevel = some p) := by
  constructor
  · exact List.length_take_le _ _
  · intro r hr
    have hr1 : r ∈ (restaurants.filter (nearbyFilter filters)).mergeSort nearbyLE :=
      List.take_subset _ _ hr
    rw [List.mem_mergeSort, List.mem_filter] at hr1
    obtain ⟨ha, hd, hrat, hp⟩ := nearbyFilter_eq_true _ _ hr1.2
    refine ⟨ha, hd, ?_, hp⟩
    intro q hq
    have hfail := hrat q hq
    cases hr2 : r.rating with
    | none =>
      rw [hr2] at hfail
      simp only [ratingFails] at hfail
      exact absurd hfail (by simp)
    | some rr =>
      rw [hr2] at hfail
      simp only [ratingFails] at hfail
      by_cases h0 : rr = 0
      · rw [if_pos h0] at hfail
        exact absurd hfail (by simp)
      · rw [if_neg h0] at hfail
        simp only [decide_eq_false_iff_not] at hfail
        exact ⟨rr, rfl, le_of_not_lt hfail⟩

/-- Witness for `c5_nearby_filtered`: with no active filters, a zero-attendee
restaurant at distance 1/2 mile is returned and satisfies the guarantees. -/
theorem c5_nearby_filtered_witness :
    rwdA ∈ restaurantsNearby ⟨none, none, none⟩ [rwdA] ∧
    rwdA.attendeeCount = 0 ∧ rwdA.distance ≤ 1 := by
  have hmem : rwdA ∈ restaurantsNearby ⟨none, none, none⟩ [rwdA] := by
    unfold restaurantsNearby
    have hf : [rwdA].filter (nearbyFilter ⟨none, none, none⟩) = [rwdA] := by decide
    rw [hf, List.mergeSort_singleton]
    decide
  exact ⟨hmem, ((c5_nearby_filtered ⟨none, none, none⟩ [rwdA]).2 rwdA hmem).1,
    ((c5_nearby_filtered ⟨none, none, none⟩ [rwdA]).2 rwdA hmem).2.1⟩

/-- `attendanceLE` is transitive. -/
theorem attendanceLE_trans (a b c : RestaurantWithDetails) :
    attendanceLE a b → attendanceLE b c → attendanceLE a c := by
  unfold attendanceLE
  simp only [decide_eq_true_eq]
  omega

/-- `attendanceLE` is total. -/
theorem attendanceLE_total (a b : RestaurantWithDetails) :
    attendanceLE a b || attendanceLE b a := by
  unfold attendanceLE
  rcases Nat.le_total b.attendeeCount a.attendeeCount with h | h <;> simp [h]

/-- Characterization of the nearby comparator: `a` may precede `b` iff `a`'s
rating (0 for `null`) is larger, or equal with `a` at most as far. -/
theorem nearbyLE_iff (a b : RestaurantWithDetails) : nearbyLE a b = true ↔
    (ratingOrZero b < ratingOrZero a ∨
      (ratingOrZero b = ratingOrZero a ∧ a.distance ≤ b.distance)) := by
  unfold nearbyLE
  split_ifs with h
  · simp only [decide_eq_true_eq]
    constructor
    · exact Or.inl
    · rintro (h2 | ⟨h2, _⟩)
      · exact h2
      · exact absurd h2 h
  · push_neg at h
    simp only [decide_eq_true_eq]
    constructor
    · intro hd
      exact Or.inr ⟨h, hd⟩
    · rintro (h2 | ⟨_, h2⟩)
      · rw [h] at h2
        exact absurd h2 (lt_irrefl _)
      · exact h2

/-- `nearbyLE` is transitive. -/
theorem nearbyLE_trans (a b c : RestaurantWithDetails) :
    nearbyLE a b → nearbyLE b c → nearbyLE a c := by
  intro hab hbc
  rw [nearbyLE_iff] at hab hbc ⊢
  rcases hab with h1 | ⟨h1, h1d⟩ <;> rcases hbc with h2 | ⟨h2, h2d⟩
  · exact Or.inl (lt_trans h2 h1)
  · exact Or.inl (by rw [h2]; exact h1)
  · exact Or.inl (by rw [← h1]; exact h2)
  · exact Or.inr ⟨h2.trans h1, le_trans h1d h2d⟩

/-- `nearbyLE` is total. -/
theorem nearbyLE_total (a b : RestaurantWithDetails) :
    nearbyLE a b || nearbyLE b a := by
  rw [Bool.or_eq_true, nearbyLE_iff, nearbyLE_iff]
  rcases lt_trichotomy (ratingOrZero a) (ratingOrZero b) with h | h | h
  · exact Or.inr (Or.inl h)
  · rcases le_total a.distance b.distance with hd | hd
    · exact Or.inl (Or.inr ⟨h.symm, hd⟩)
    · exact Or.inr (Or.inr ⟨h, hd⟩)
  · exact Or.inl (Or.inl h)

/-- Claim C6: the loader splits the list into the attendee-sorted attendance
list — a permutation of exactly the restaurants with `attendeeCount > 0`,
sorted descending by attendee count — and the nearby list sorted by rating
descending (missing ratings lowest, i.e. 0) with distance ascending as the
tiebreaker. -/
theorem c6_split_and_sort (filters : Filters) (restaurants : List RestaurantWithDetails) :
    (restaurantsWithAttendance restaurants).Perm
      (restaurants.filter (fun r => decide (r.attendeeCount > 0))) ∧
    (restaurantsWithAttendance restaurants).Pairwise
      (fun a b => b.attendeeCount ≤ a.attendeeCount) ∧
    (restaurantsNearby filters restaurants).Pairwise
      (fun a b => ratingOrZero b < ratingOrZero a ∨
        (ratingOrZero b = ratingOrZero a ∧ a.distance ≤ b.distance)) := by
  refine ⟨List.mergeSort_perm _ _, ?_, ?_⟩
  · have hs := List.sorted_mergeSort attendanceLE_trans attendanceLE_total
      (restaurants.filter (fun r => decide (r.attendeeCount > 0)))
    exact hs.imp (fun h => by simpa [attendanceLE] using h)
  · have hs := List.sorted_mergeSort nearbyLE_trans nearbyLE_total
      (restaurants.filter (nearbyFilter filters))
    have ht : (restaurantsNearby filters restaurants).Pairwise (fun a b => nearbyLE a b) :=
      hs.sublist (List.take_sublist _ _)
    exact ht.imp (fun h => (nearbyLE_iff _ _).mp h)

/-- Claim C9: `calculateDistance` is symmetric in its two coordinate pairs,
and the distance from a point to itself is `0`. -/
theorem c9_distance_symm_and_zero :
    (∀ lat1 lng1 lat2 lng2 : ℝ,
      calculateDistance lat1 lng1 lat2 lng2 = calculateDistance lat2 lng2 lat1 lng1) ∧
    (∀ lat lng : ℝ, calculateDistance lat lng lat lng = 0) := by
  constructor
  · intro lat1 lng1 lat2 lng2
    have hA : haversineA lat1 lng1 lat2 lng2 = haversineA lat2 lng2 lat1 lng1 := by
      unfold haversineA toRadians
      have e1 : (lat1 - lat2) * (Real.pi / 180) / 2 = -((lat2 - lat1) * (Real.pi / 180) / 2) := by
        ring
      have e2 : (lng1 - lng2) * (Real.pi / 180) / 2 = -((lng2 - lng1) * (Real.pi / 180) / 2) := by
        ring
      rw [e1, e2]
      simp only [Real.sin_neg]
      ring
    unfold calculateDistance
    rw [hA]
  · intro lat lng
    have hA : haversineA lat lng lat lng = 0 := by
      unfold haversineA toRadians
      simp
    unfold calculateDistance
    rw [hA, Real.sqrt_zero, sub_zero, Real.sqrt_one]
    have hat : atan2 0 1 = 0 := by
      unfold atan2
      rw [if_pos (by norm_num : (0:ℝ) < 1)]
      simp [Real.arctan_zero]
    rw [hat]
    norm_num [round2, round_zero]

/-- A restaurant id owned by no `DinnerGroup` row is never touched by the
`reduce` in `getAttendeeCounts`, so its count reads `0`. -/
theorem getAttendeeCounts_eq_zero (restaurantIds : List String) (s : Store) (rid : String)
    (h : ∀ g ∈ s.groups, g.restaurantId ≠ rid) :
    getAttendeeCounts restaurantIds s rid = 0 := by
  unfold getAttendeeCounts
  have key : ∀ (l : List DinnerGroup) (init : String → Nat),
      (∀ g ∈ l, g.restaurantId ≠ rid) →
      (l.foldl (fun counts group => Function.update counts group.restaurantId
        (s.attendees.countP (fun a => a.dinnerGroupId == group.id))) init) rid = init rid := by
    intro l
    induction l with
    | nil => intro init _; rfl
    | cons g gs ih =>
      intro init hgs
      rw [List.foldl_cons, ih _ (fun x hx => hgs x (List.mem_cons_of_mem _ hx))]
      exact Function.update_noteq (Ne.symm (hgs g (List.mem_cons_self g gs))) _ _
  apply key
  intro g hg
  exact h g (List.mem_filter.mp hg).1

/-- The user's current attendance, when distinct from `none` twice over:
`ua = some (some rid)` means the user attends the group of restaurant `rid`.
For a fixed attendance at most one restaurant of a duplicate-free list can
match it. -/
theorem countP_attending_le_one (ua : Option (Option String))
    (restaurants : List Restaurant) (hnd : (restaurants.map (·.id)).Nodup) :
    restaurants.countP (fun r => decide (ua = some (some r.id))) ≤ 1 := by
  cases ua with
  | none =>
    have h0 : restaurants.countP
        (fun r => decide ((none : Option (Option String)) = some (some r.id))) = 0 :=
      List.countP_eq_zero.mpr (by intro a _; simp)
    rw [h0]
    exact Nat.zero_le 1
  | some o =>
    cases o with
    | none =>
      have h0 : restaurants.countP
          (fun r => decide ((some (none : Option String)) = some (some r.id))) = 0 :=
        List.countP_eq_zero.mpr (by intro a _; simp)
      rw [h0]
      exact Nat.zero_le 1
    | some rid =>
      have hc : restaurants.countP (fun r => decide (some (some rid) = some (some r.id))) =
          (restaurants.map (·.id)).count rid := by
        rw [List.count_eq_countP, List.countP_map]
        refine List.countP_congr ?_
        intro a _
        simp only [decide_eq_true_eq, Option.some.injEq, Function.comp_apply, beq_iff_eq]
        exact eq_comm
      rw [hc]
      exact List.nodup_iff_count_le_one.mp hnd rid

/-- Claim C10: in the merged list, `attendeeCount` reads `0` for every
restaurant without a `DinnerGroup` row, `isUserAttending` is `true` exactly
when the restaurant's id is the `restaurantId` of the user's current dinner
group, and — restaurant ids being distinct — at most one entry has
`isUserAttending` set. -/
theorem c10_merge (lat lng : ℚ) (userId : String) (s : Store)
    (restaurants : List Restaurant) :
    (∀ x ∈ getAllRestaurantDetails lat lng userId s restaurants,
      ((∀ g ∈ s.groups, g.restaurantId ≠ x.id) → x.attendeeCount = 0) ∧
      (x.isUserAttending = true ↔
        getUserAttendingRestaurant userId s = some (some x.id))) ∧
    ((restaurants.map (·.id)).Nodup →
      (getAllRestaurantDetails lat lng userId s restaurants).countP (·.isUserAttending) ≤ 1) := by
  constructor
  · intro x hx
    unfold getAllRestaurantDetails at hx
    rw [List.mem_map] at hx
    obtain ⟨r, hr, rfl⟩ := hx
    constructor
    · intro hng
      simpa using getAttendeeCounts_eq_zero (restaurants.map (·.id)) s r.id (by simpa using hng)
    · simp
  · intro hnd
    have := countP_attending_le_one (getUserAttendingRestaurant userId s) restaurants hnd
    simpa [getAllRestaurantDetails, List.countP_map, Function.comp] using this

/-- Witness for `c10_merge`: one restaurant, one unrelated dinner group. -/
theorem c10_merge_witness :
    ([restA].map (·.id)).Nodup ∧
    (getAllRestaurantDetails 1 2 "u1" storeOne [restA]).countP (·.isUserAttending) ≤ 1 :=
  ⟨by decide, (c10_merge 1 2 "u1" storeOne [restA]).2 (by decide)⟩

set_option maxRecDepth 4000 in
/-- Claim C3, as stated, is refuted at a concrete input: two calls whose
coordinates round to the same location (here `lat = 0.00001` vs `lat = 0`,
equal after rounding to 4 decimal places) and share a radius build different
cache keys — the key uses the raw `lat`/`lng`, not a rounded location — so
the second call misses the entry populated by the first even though it
happens within the 24-hour TTL. -/
theorem c3_counterexample :
    roundTo4 (mkRat 1 100000) = roundTo4 0 ∧
    restaurantCacheKey (mkRat 1 100000) 0 3200 ≠ restaurantCacheKey 0 0 3200 ∧
    (cachifiedRun (restaurantCacheKey 0 0 3200) RESTAURANT_CACHE_TTL 1000
        (cachifiedRun (restaurantCacheKey (mkRat 1 100000) 0 3200)
          RESTAURANT_CACHE_TTL 0 [] [restA]).2.2 [restA]).2.1 = false := by
  refine ⟨by with_unfolding_all decide, by with_unfolding_all decide,
    by with_unfolding_all decide⟩

/-- Claim C3 (amended): the provider results are cached keyed by the *exact*
`lat`/`lng` plus radius with a 24-hour TTL: two calls with equal coordinates
and radius, the second within the TTL of the first, hit the same cache entry
(the second returns the first call's value without recomputing). -/
theorem c3_amended (lat lng radius : ℚ) (cache : List (String × List Restaurant × Nat))
    (v1 v2 : List Restaurant) (t1 t2 : Nat)
    (hc : cache.find? (fun e => e.1 == restaurantCacheKey lat lng radius) = none)
    (ht : t2 - t1 ≤ RESTAURANT_CACHE_TTL) :
    cachifiedRun (restaurantCacheKey lat lng radius) RESTAURANT_CACHE_TTL t2
        (cachifiedRun (restaurantCacheKey lat lng radius) RESTAURANT_CACHE_TTL t1 cache v1).2.2
        v2 =
      (v1, true,
        (cachifiedRun (restaurantCacheKey lat lng radius) RESTAURANT_CACHE_TTL t1 cache v1).2.2) := by
  have h1 : cachifiedRun (restaurantCacheKey lat lng radius) RESTAURANT_CACHE_TTL t1 cache v1 =
      (v1, false, (restaurantCacheKey lat lng radius, v1, t1) :: cache) := by
    unfold cachifiedRun
    rw [hc]
  have hk : ((restaurantCacheKey lat lng radius, v1, t1) :: cache).find?
      (fun e => e.1 == restaurantCacheKey lat lng radius) =
        some (restaurantCacheKey lat lng radius, v1, t1) :=
    List.find?_cons_of_pos _ (by simp)
  rw [h1]
  unfold cachifiedRun
  rw [hk]
  simp [ht]

/-- Witness for `c3_amended`: two calls at equal coordinates and radius, 5 ms
apart, on an initially empty cache. -/
theorem c3_amended_witness :
    (([] : List (String × List Restaurant × Nat)).find?
      (fun e => e.1 == restaurantCacheKey 1 2 3) = none) ∧
    5 - 0 ≤ RESTAURANT_CACHE_TTL ∧
    cachifiedRun (restaurantCacheKey 1 2 3) RESTAURANT_CACHE_TTL 5
        (cachifiedRun (restaurantCacheKey 1 2 3) RESTAURANT_CACHE_TTL 0 [] [restA]).2.2 [] =
      ([restA], true,
        (cachifiedRun (restaurantCacheKey 1 2 3) RESTAURANT_CACHE_TTL 0 [] [restA]).2.2) :=
  ⟨rfl, by decide, c3_amended 1 2 3 [] [restA] [] 0 5 rfl (by decide)⟩

/-- `leaveDinnerGroup` never touches the fresh-id counter. -/
theorem leaveDinnerGroup_nextId (u : String) (s : Store) :
    (leaveDinnerGroup u s).2.nextId = s.nextId := by
  unfold leaveDinnerGroup
  cases s.attendees.find? (fun a => a.userId == u) <;> rfl

/-- The user has no `Attendee` row iff `findFirst` comes back empty. -/
theorem attendeesOf_eq_nil_iff (s : Store) (u : String) :
    attendeesOf s u = [] ↔ s.attendees.find? (fun a => a.userId == u) = none := by
  rw [attendeesOf, List.filter_eq_nil_iff, List.find?_eq_none]

/-- `leaveDinnerGroup` is a no-op returning `null` when the user has no
attendance. -/
theorem leaveDinnerGroup_noop (u : String) (s : Store) (h : attendeesOf s u = []) :
    leaveDinnerGroup u s = (none, s) := by
  unfold leaveDinnerGroup
  rw [(attendeesOf_eq_nil_iff s u).mp h]

/-- After `leaveDinnerGroup`, a user with (at most) one `Attendee` row —
userIds duplicate-free — has none. -/
theorem attendeesOf_leave (u : String) (s : Store)
    (hnd : (s.attendees.map (·.userId)).Nodup) :
    attendeesOf (leaveDinnerGroup u s).2 u = [] := by
  unfold leaveDinnerGroup
  cases hf : s.attendees.find? (fun a => a.userId == u) with
  | none => exact (attendeesOf_eq_nil_iff s u).mpr hf
  | some att =>
    have hmem : att ∈ s.attendees := List.mem_of_find?_eq_some hf
    have hatt : att.userId = u := by simpa using List.find?_some hf
    show ((s.attendees.filter (fun a => a.id != att.id)).filter (fun a => a.userId == u)) = []
    rw [List.filter_eq_nil_iff]
    intro a ha hu
    rw [List.mem_filter] at ha
    have hau : a.userId = u := by simpa using hu
    have haeq : a = att :=
      List.inj_on_of_nodup_map hnd ha.1 hmem (by rw [hau, hatt])
    have : (a.id != att.id) = true := ha.2
    rw [haeq] at this
    simp at this

/-- Explicit shape of `leaveDinnerGroup` when the user's attendance is found. -/
theorem leaveDinnerGroup_eq_found (u : String) (s : Store) (att : Attendee)
    (hf : s.attendees.find? (fun a => a.userId == u) = some att) :
    leaveDinnerGroup u s =
      ((s.groups.find? (fun g => g.id == att.dinnerGroupId)).map (·.restaurantId),
       ⟨if (s.attendees.filter (fun a => a.id != att.id)).countP
            (fun a => a.dinnerGroupId == att.dinnerGroupId) = 0 then
          s.groups.filter (fun g => g.id != att.dinnerGroupId)
        else s.groups,
        s.attendees.filter (fun a => a.id != att.id),
        s.nextId⟩) := by
  unfold leaveDinnerGroup
  rw [hf]

/-- The attendee table only shrinks under `leaveDinnerGroup`. -/
theorem leaveDinnerGroup_attendees_sublist (u : String) (s : Store) :
    List.Sublist (leaveDinnerGroup u s).2.attendees s.attendees := by
  unfold leaveDinnerGroup
  cases s.attendees.find? (fun a => a.userId == u) with
  | none => exact List.Sublist.refl _
  | some att => exact List.filter_sublist _

/-- `leaveDinnerGroup` preserves the store invariants. -/
theorem inv_leave (u : String) (s : Store) (h : Inv s) : Inv (leaveDinnerGroup u s).2 := by
  unfold Inv at h
  obtain ⟨hg1, hg2, ha1, ha2, href, hnemp, hgn, han⟩ := h
  cases hf : s.attendees.find? (fun a => a.userId == u) with
  | none =>
    rw [leaveDinnerGroup_noop u s ((attendeesOf_eq_nil_iff s u).mpr hf)]
    exact ⟨hg1, hg2, ha1, ha2, href, hnemp, hgn, han⟩
  | some att =>
    rw [leaveDinnerGroup_eq_found u s att hf]
    have hmem : att ∈ s.attendees := List.mem_of_find?_eq_some hf
    set A := s.attendees.filter (fun a => a.id != att.id) with hA
    have hsubA : List.Sublist A s.attendees := List.filter_sublist _
    by_cases hrem : (A.countP (fun a => a.dinnerGroupId == att.dinnerGroupId)) = 0
    · rw [if_pos hrem]
      set G := s.groups.filter (fun g => g.id != att.dinnerGroupId) with hG
      have hsubG : List.Sublist G s.groups := List.filter_sublist _
      unfold Inv
      refine ⟨List.Nodup.sublist (hsubG.map _) hg1, List.Nodup.sublist (hsubG.map _) hg2,
        List.Nodup.sublist (hsubA.map _) ha1, List.Nodup.sublist (hsubA.map _) ha2,
        ?_, ?_, ?_, ?_⟩
      · intro a ha
        obtain ⟨g, hg, hgid⟩ := href a (hsubA.subset ha)
        by_cases hid : g.id = att.dinnerGroupId
        · exfalso
          have hpos : 0 < A.countP (fun x => x.dinnerGroupId == att.dinnerGroupId) :=
            List.countP_pos_iff.mpr ⟨a, ha, by simp [← hgid, hid]⟩
          omega
        · exact ⟨g, List.mem_filter.mpr ⟨hg, by simpa using hid⟩, hgid⟩
      · intro g hgmem'
        have hgsplit := List.mem_filter.mp hgmem'
        have hgne : g.id ≠ att.dinnerGroupId := by simpa using hgsplit.2
        obtain ⟨a, hamem, hadg⟩ := hnemp g hgsplit.1
        have hane : a.id ≠ att.id := by
          intro hideq
          have heq : a = att := List.inj_on_of_nodup_map ha1 hamem hmem hideq
          rw [heq] at hadg
          exact hgne hadg.symm
        exact ⟨a, List.mem_filter.mpr ⟨hamem, by simpa using hane⟩, hadg⟩
      · intro g hgmem'
        exact hgn g (hsubG.subset hgmem')
      · intro a ha
        exact han a (hsubA.subset ha)
    · rw [if_neg hrem]
      unfold Inv
      refine ⟨hg1, hg2, List.Nodup.sublist (hsubA.map _) ha1,
        List.Nodup.sublist (hsubA.map _) ha2, ?_, ?_, hgn, ?_⟩
      · intro a ha
        exact href a (hsubA.subset ha)
      · intro g hgmem
        by_cases hid : g.id = att.dinnerGroupId
        · obtain ⟨a, ha, hadg⟩ := List.countP_pos_iff.mp (Nat.pos_of_ne_zero hrem)
          refine ⟨a, ha, ?_⟩
          have hdg : a.dinnerGroupId = att.dinnerGroupId := by simpa using hadg
          rw [hdg]
          exact hid.symm
        · obtain ⟨a, hamem, hadg⟩ := hnemp g hgmem
          have hane : a.id ≠ att.id := by
            intro hideq
            have heq : a = att := List.inj_on_of_nodup_map ha1 hamem hmem hideq
            rw [heq] at hadg
            exact hid hadg.symm
          exact ⟨a, List.mem_filter.mpr ⟨hamem, by simpa using hane⟩, hadg⟩
      · intro a ha
        exact han a (hsubA.subset ha)

/-- Appending a fresh element keeps a mapped list duplicate-free. -/
theorem nodup_map_append_singleton {A B : Type} (f : A → B) (l : List A) (x : A)
    (h : (l.map f).Nodup) (hx : f x ∉ l.map f) : ((l ++ [x]).map f).Nodup := by
  rw [List.map_append]
  rw [List.nodup_append]
  refine ⟨h, List.nodup_singleton _, ?_⟩
  intro b hb hb2
  rw [List.map_singleton, List.mem_singleton] at hb2
  rw [hb2] at hb
  exact hx hb

/-- A user with no attendance contributes no `userId` to the attendee table. -/
theorem userId_not_mem_of_attendeesOf_nil {s : Store} {u : String}
    (h : attendeesOf s u = []) : u ∉ s.attendees.map (·.userId) := by
  rw [attendeesOf, List.filter_eq_nil_iff] at h
  intro hmem
  obtain ⟨a, ha, hau⟩ := List.mem_map.mp hmem
  exact (h a ha) (by simp [hau])

/-- Explicit shape of `joinDinnerGroup` when the target group already exists. -/
theorem joinDinnerGroup_eq_found (u r : String) (s : Store) (dg : DinnerGroup)
    (hg : (leaveDinnerGroup u s).2.groups.find? (fun g => g.restaurantId == r) = some dg) :
    joinDinnerGroup u r s =
      (⟨(leaveDinnerGroup u s).2.nextId, u, dg.id⟩,
       ⟨(leaveDinnerGroup u s).2.groups,
        (leaveDinnerGroup u s).2.attendees ++ [⟨(leaveDinnerGroup u s).2.nextId, u, dg.id⟩],
        (leaveDinnerGroup u s).2.nextId + 1⟩) := by
  simp only [joinDinnerGroup]
  rw [hg]

/-- Explicit shape of `joinDinnerGroup` when the target group is created. -/
theorem joinDinnerGroup_eq_new (u r : String) (s : Store)
    (hg : (leaveDinnerGroup u s).2.groups.find? (fun g => g.restaurantId == r) = none) :
    joinDinnerGroup u r s =
      (⟨(leaveDinnerGroup u s).2.nextId + 1, u, (leaveDinnerGroup u s).2.nextId⟩,
       ⟨(leaveDinnerGroup u s).2.groups ++ [⟨(leaveDinnerGroup u s).2.nextId, r⟩],
        (leaveDinnerGroup u s).2.attendees ++
          [⟨(leaveDinnerGroup u s).2.nextId + 1, u, (leaveDinnerGroup u s).2.nextId⟩],
        (leaveDinnerGroup u s).2.nextId + 2⟩) := by
  simp only [joinDinnerGroup]
  rw [hg]

/-- `joinDinnerGroup` preserves the store invariants. -/
theorem inv_join (u r : String) (s : Store) (h : Inv s) : Inv (joinDinnerGroup u r s).2 := by
  have hemp : attendeesOf (leaveDinnerGroup u s).2 u = [] := by
    unfold Inv at h
    exact attendeesOf_leave u s h.2.2.2.1
  have ht := inv_leave u s h
  unfold Inv at ht
  obtain ⟨tg1, tg2, ta1, ta2, tref, tnemp, tgn, tan⟩ := ht
  have huser : u ∉ (leaveDinnerGroup u s).2.attendees.map (·.userId) :=
    userId_not_mem_of_attendeesOf_nil hemp
  cases hg : (leaveDinnerGroup u s).2.groups.find? (fun g => g.restaurantId == r) with
  | some dg =>
    rw [joinDinnerGroup_eq_found u r s dg hg]
    unfold Inv
    refine ⟨tg1, tg2, ?_, ?_, ?_, ?_, ?_, ?_⟩
    · refine nodup_map_append_singleton _ _ _ ta1 ?_
      intro hmem
      obtain ⟨a, ha, haid⟩ := List.mem_map.mp hmem
      have := tan a ha
      simp only [] at haid
      omega
    · exact nodup_map_append_singleton _ _ _ ta2 huser
    · intro a ha
      rw [List.mem_append] at ha
      rcases ha with ha | ha
      · exact tref a ha
      · rw [List.mem_singleton] at ha
        exact ⟨dg, List.mem_of_find?_eq_some hg, by rw [ha]⟩
    · intro g hgmem
      obtain ⟨a, ha, hadg⟩ := tnemp g hgmem
      exact ⟨a, List.mem_append_left _ ha, hadg⟩
    · intro g hgmem
      exact Nat.lt_succ_of_lt (tgn g hgmem)
    · intro a ha
      rw [List.mem_append] at ha
      rcases ha with ha | ha
      · exact Nat.lt_succ_of_lt (tan a ha)
      · rw [List.mem_singleton] at ha
        rw [ha]
        exact Nat.lt_succ_self _
  | none =>
    rw [joinDinnerGroup_eq_new u r s hg]
    unfold Inv
    have hrnot : r ∉ (leaveDinnerGroup u s).2.groups.map (·.restaurantId) := by
      intro hmem
      obtain ⟨g, hgmem, hgr⟩ := List.mem_map.mp hmem
      exact (List.find?_eq_none.mp hg g hgmem) (by simp [hgr])
    refine ⟨?_, ?_, ?_, ?_, ?_, ?_, ?_, ?_⟩
    · refine nodup_map_append_singleton _ _ _ tg1 ?_
      intro hmem
      obtain ⟨g, hgmem, hgid⟩ := List.mem_map.mp hmem
      have := tgn g hgmem
      simp only [] at hgid
      omega
    · exact nodup_map_append_singleton _ _ _ tg2 hrnot
    · refine nodup_map_append_singleton _ _ _ ta1 ?_
      intro hmem
      obtain ⟨a, ha, haid⟩ := List.mem_map.mp hmem
      have := tan a ha
      simp only [] at haid
      omega
    · exact nodup_map_append_singleton _ _ _ ta2 huser
    · intro a ha
      rw [List.mem_append] at ha
      rcases ha with ha | ha
      · obtain ⟨g, hgmem, hgid⟩ := tref a ha
        exact ⟨g, List.mem_append_left _ hgmem, hgid⟩
      · rw [List.mem_singleton] at ha
        refine ⟨⟨(leaveDinnerGroup u s).2.nextId, r⟩, List.mem_append_right _ ?_, by rw [ha]⟩
        exact List.mem_singleton.mpr rfl
    · intro g hgmem
      rw [List.mem_append] at hgmem
      rcases hgmem with hgmem | hgmem
      · obtain ⟨a, ha, hadg⟩ := tnemp g hgmem
        exact ⟨a, List.mem_append_left _ ha, hadg⟩
      · rw [List.mem_singleton] at hgmem
        refine ⟨⟨(leaveDinnerGroup u s).2.nextId + 1, u, (leaveDinnerGroup u s).2.nextId⟩,
          List.mem_append_right _ (List.mem_singleton.mpr rfl), by rw [hgmem]⟩
    · intro g hgmem
      rw [List.mem_append] at hgmem
      dsimp only
      rcases hgmem with hgmem | hgmem
      · have := tgn g hgmem
        omega
      · rw [List.mem_singleton] at hgmem
        rw [hgmem]
        dsimp only
        omega
    · intro a ha
      rw [List.mem_append] at ha
      dsimp only
      rcases ha with ha | ha
      · have := tan a ha
        omega
      · rw [List.mem_singleton] at ha
        rw [ha]
        dsimp only
        omega

/-- The empty store satisfies the invariants. -/
theorem inv_empty : Inv emptyStore := by decide

/-- Every state reachable by sequential join/leave calls satisfies the store
invariants. -/
theorem reachable_inv (s : Store) (h : Reachable s) : Inv s := by
  induction h with
  | empty => exact inv_empty
  | join u r hs ih => exact inv_join u r _ ih
  | leave u hs ih => exact inv_leave u _ ih

/-- At most one list element maps to any given value when the mapped list is
duplicate-free. -/
theorem countP_map_le_one {A B : Type} [DecidableEq B] (f : A → B) (l : List A)
    (h : (l.map f).Nodup) (y : B) : l.countP (fun x => f x == y) ≤ 1 := by
  have hc : l.countP (fun x => f x == y) = (l.map f).count y := by
    rw [List.count_eq_countP, List.countP_map]
    rfl
  rw [hc]
  exact List.nodup_iff_count_le_one.mp h y

/-- Claim C4: in every state reachable from the empty store by sequential
`joinDinnerGroup`/`leaveDinnerGroup` calls there is at most one `DinnerGroup`
row per `restaurantId` and at most one `Attendee` row per user. -/
theorem c4_reachable_invariants (s : Store) (h : Reachable s) :
    (∀ r, s.groups.countP (fun g => g.restaurantId == r) ≤ 1) ∧
    (∀ u, s.attendees.countP (fun a => a.userId == u) ≤ 1) := by
  have hi := reachable_inv s h
  unfold Inv at hi
  obtain ⟨-, hg2, -, ha2, -, -, -, -⟩ := hi
  exact ⟨fun r => countP_map_le_one _ _ hg2 r, fun u => countP_map_le_one _ _ ha2 u⟩

/-- Witness for `c4_reachable_invariants`: the state after one join from the
empty store. -/
theorem c4_reachable_invariants_witness :
    Reachable storeOne ∧
    storeOne.groups.countP (fun g => g.restaurantId == "r1") ≤ 1 ∧
    storeOne.attendees.countP (fun a => a.userId == "u1") ≤ 1 := by
  have hr : Reachable storeOne := by
    have he : (joinDinnerGroup "u1" "r1" emptyStore).2 = storeOne := by decide
    exact he ▸ Reachable.join "u1" "r1" Reachable.empty
  exact ⟨hr, (c4_reachable_invariants storeOne hr).1 "r1",
    (c4_reachable_invariants storeOne hr).2 "u1"⟩

/-- Claim C1: from any state satisfying the store invariants (all states of
sequential runs, cf. `reachable_inv`), after `joinDinnerGroup` the user has
exactly one `Attendee` row — the returned one — that row's dinner group has
the target `restaurantId`, and every `Attendee` row the user had before the
call is gone. -/
theorem c1_join_spec (u r : String) (s : Store) (h : Inv s) :
    attendeesOf (joinDinnerGroup u r s).2 u = [(joinDinnerGroup u r s).1] ∧
    (∃ g ∈ (joinDinnerGroup u r s).2.groups,
      g.id = (joinDinnerGroup u r s).1.dinnerGroupId ∧ g.restaurantId = r) ∧
    (∀ a ∈ s.attendees, a.userId = u → a ∉ (joinDinnerGroup u r s).2.attendees) := by
  have hs := h
  unfold Inv at hs
  obtain ⟨-, -, -, ha2, -, -, -, han⟩ := hs
  have hemp : attendeesOf (leaveDinnerGroup u s).2 u = [] := attendeesOf_leave u s ha2
  have hnext : (leaveDinnerGroup u s).2.nextId = s.nextId := leaveDinnerGroup_nextId u s
  cases hg : (leaveDinnerGroup u s).2.groups.find? (fun g => g.restaurantId == r) with
  | some dg =>
    rw [joinDinnerGroup_eq_found u r s dg hg]
    refine ⟨?_, ?_, ?_⟩
    · unfold attendeesOf
      dsimp only
      rw [List.filter_append,
        show List.filter (fun a => a.userId == u) (leaveDinnerGroup u s).2.attendees = []
          from hemp]
      simp
    · exact ⟨dg, List.mem_of_find?_eq_some hg, rfl, by simpa using List.find?_some hg⟩
    · intro a hamem hau
      dsimp only
      rw [List.mem_append]
      rintro (hin | hin)
      · have hmem2 : a ∈ attendeesOf (leaveDinnerGroup u s).2 u :=
          List.mem_filter.mpr ⟨hin, by simp [hau]⟩
        rw [hemp] at hmem2
        simp at hmem2
      · rw [List.mem_singleton] at hin
        have haid : a.id < s.nextId := han a hamem
        rw [hin] at haid
        rw [hnext] at haid
        simp at haid
  | none =>
    rw [joinDinnerGroup_eq_new u r s hg]
    refine ⟨?_, ?_, ?_⟩
    · unfold attendeesOf
      dsimp only
      rw [List.filter_append,
        show List.filter (fun a => a.userId == u) (leaveDinnerGroup u s).2.attendees = []
          from hemp]
      simp
    · refine ⟨⟨(leaveDinnerGroup u s).2.nextId, r⟩,
        List.mem_append_right _ (List.mem_singleton.mpr rfl), rfl, rfl⟩
    · intro a hamem hau
      dsimp only
      rw [List.mem_append]
      rintro (hin | hin)
      · have hmem2 : a ∈ attendeesOf (leaveDinnerGroup u s).2 u :=
          List.mem_filter.mpr ⟨hin, by simp [hau]⟩
        rw [hemp] at hmem2
        simp at hmem2
      · rw [List.mem_singleton] at hin
        have haid : a.id < s.nextId := han a hamem
        rw [hin] at haid
        rw [hnext] at haid
        simp at haid

/-- Witness for `c1_join_spec`: a join from the empty store. -/
theorem c1_join_spec_witness :
    Inv emptyStore ∧
    attendeesOf (joinDinnerGroup "u1" "r1" emptyStore).2 "u1" =
      [(joinDinnerGroup "u1" "r1" emptyStore).1] :=
  ⟨by decide, (c1_join_spec "u1" "r1" emptyStore (by decide)).1⟩

/-- Claim C2, as stated over *every* starting state, is refuted at a concrete
input: on a store already holding an attendee-less `DinnerGroup` (a state no
sequential run produces, but one the claim quantifies over), both calls are
no-ops and an empty `DinnerGroup` remains after calling `leaveDinnerGroup`
twice. -/
theorem c2_counterexample :
    (∃ g ∈ (leaveDinnerGroup "u1" (leaveDinnerGroup "u1" storeEmptyGroup).2).2.groups,
      ∀ a ∈ (leaveDinnerGroup "u1" (leaveDinnerGroup "u1" storeEmptyGroup).2).2.attendees,
        a.dinnerGroupId ≠ g.id) := by
  decide

/-- Claim C2 (amended): for every state satisfying the store invariants —
equivalently every state of a sequential run, cf. `reachable_inv` — calling
`leaveDinnerGroup` twice leaves the user with no `Attendee` row and leaves no
empty `DinnerGroup`; the second call is a no-op on the store returning
`null`, as is any call made when the user has no attendance. -/
theorem c2_leave_idempotent (u : String) (s : Store) (h : Inv s) :
    attendeesOf (leaveDinnerGroup u (leaveDinnerGroup u s).2).2 u = [] ∧
    (∀ g ∈ (leaveDinnerGroup u (leaveDinnerGroup u s).2).2.groups,
      ∃ a ∈ (leaveDinnerGroup u (leaveDinnerGroup u s).2).2.attendees,
        a.dinnerGroupId = g.id) ∧
    leaveDinnerGroup u (leaveDinnerGroup u s).2 = (none, (leaveDinnerGroup u s).2) ∧
    (attendeesOf s u = [] → leaveDinnerGroup u s = (none, s)) := by
  have hi := inv_leave u s h
  have hemp : attendeesOf (leaveDinnerGroup u s).2 u = [] := by
    unfold Inv at h
    exact attendeesOf_leave u s h.2.2.2.1
  have hstep : leaveDinnerGroup u (leaveDinnerGroup u s).2 =
      (none, (leaveDinnerGroup u s).2) := leaveDinnerGroup_noop u _ hemp
  refine ⟨?_, ?_, hstep, leaveDinnerGroup_noop u s⟩
  · rw [hstep]
    exact hemp
  · rw [hstep]
    unfold Inv at hi
    exact hi.2.2.2.2.2.1

/-- Witness for `c2_leave_idempotent`: double-leave on a one-member group. -/
theorem c2_leave_idempotent_witness :
    Inv storeOne ∧
    attendeesOf (leaveDinnerGroup "u1" (leaveDinnerGroup "u1" storeOne).2).2 "u1" = [] ∧
    leaveDinnerGroup "u1" (leaveDinnerGroup "u1" storeOne).2 =
      (none, (leaveDinnerGroup "u1" storeOne).2) :=
  ⟨by decide, (c2_leave_idempotent "u1" storeOne (by decide)).1,
    (c2_leave_idempotent "u1" storeOne (by decide)).2.2.1⟩

end DinnerApp
